import Mathlib

/-!
Shallow embedding of the value/coercion core of the `luster` runtime
(`src/value.rs`) and of the `string`/`coroutine` standard-library callbacks
(`src/stdlib/string.rs`, `src/stdlib/coroutine.rs`), with theorems checking
the specification's claims about them.

Machine integers: the source works on Rust `i64`.  We embed `i64` values as
unbounded `Int` together with an explicit recentring function `wrap64`
realising two's-complement wraparound (the release-mode semantics of Rust
arithmetic; the source's `wrapping_*` helpers wrap in every build mode).
Rust's `%` on `i64` is truncated remainder, embedded as `Int.tmod`; Rust's
integer division is truncated division, embedded as `Int.tdiv`.  The plain
`%` operator additionally panics — in every build profile — on a zero
divisor and on the overflowing `i64::MIN % -1`; where the source uses plain
`%` (in `modulo`) this panic is modelled explicitly as an aborting outcome,
not collapsed into a value.

Floating point: the source's `f64` payloads and operations are deliberately
left unmodelled (claims that hinge on IEEE-754 semantics are out of scope of
this embedding).  The stand-in type `F64` carries no information; no theorem
below depends on the value of an `F64`, only on the presence or absence of a
float result.
-/

namespace Luster

/-- Stand-in for the source's `f64` payload.  Floating-point contents are not
modelled; only the success/failure structure of operations that produce or
consume floats is represented. -/
structure F64 where
  unmodelled : Unit
deriving DecidableEq, Repr

/-- Unmodelled float operation of two arguments (stands for IEEE `+`, `-`,
`*`, `/`, `%`, `floor(a/b)`, ... on `f64`). -/
def f64Op2 : F64 → F64 → F64 := fun _ _ => ⟨()⟩

/-- Unmodelled float comparison (stands for IEEE `<` / `<=` on `f64`). -/
def f64Cmp : F64 → F64 → Bool := fun _ _ => false

/-- Unmodelled `i64 as f64` cast. -/
def intToF64 : Int → F64 := fun _ => ⟨()⟩

/-- Embedding of the source's `Value` enum (`src/value.rs`).  Heap-referencing
variants (`String`, `Table`, `Function`, `Thread`) compare by object identity
in the source; the embedding carries the string's byte contents (a Lua string
is a byte buffer) and opaque identities for the other heap variants. -/
inductive value where
  | nil
  | boolean (b : Bool)
  | integer (n : Int)
  | number (x : F64)
  | string (s : List Nat)
  | table (id : Nat)
  | function (id : Nat)
  | thread (id : Nat)
deriving DecidableEq, Repr

/-- Two's-complement recentring of an unbounded integer into the `i64` range
`[-2^63, 2^63)`: the value congruent mod `2^64` that an `i64` register holds. -/
def wrap64 (x : Int) : Int := (x + 2 ^ 63) % 2 ^ 64 - 2 ^ 63

/-- The `i64` range. -/
def i64Range (x : Int) : Prop := -2 ^ 63 ≤ x ∧ x < 2 ^ 63

instance (x : Int) : Decidable (i64Range x) := by
  unfold i64Range; infer_instance

/-- The `u64` bit pattern of an `i64` value (`x as u64`). -/
def toU64 (x : Int) : Int := x % 2 ^ 64

/-- Embedding of `Value::type_name` (`src/value.rs`). -/
def value.type_name : value → String
  | .nil => "nil"
  | .boolean _ => "boolean"
  | .integer _ => "number"
  | .number _ => "number"
  | .string _ => "string"
  | .table _ => "table"
  | .function _ => "function"
  | .thread _ => "thread"

/-- Embedding of `Value::to_bool` (`src/value.rs`): only `Nil` and
`Boolean(false)` are false. -/
def value.to_bool : value → Bool
  | .nil => false
  | .boolean false => false
  | _ => true

/-- Modelled from the spec: the lexer's `read_hex_float` (the lexer is not
under `src/`).  The spec fixes only that a hexadecimal-float parse is
attempted first; the grammar itself is unspecified, so this model accepts
`0x` followed by hex digits as a representative hexadecimal form.  No theorem
below depends on which strings parse. -/
def read_hex_float (s : List Nat) : Option F64 :=
  match s with
  | 48 :: 120 :: rest =>
      if rest ≠ [] ∧ rest.all (fun c => (48 ≤ c ∧ c ≤ 57) ∨ (97 ≤ c ∧ c ≤ 102)) then
        some ⟨()⟩
      else none
  | _ => none

/-- Modelled from the spec: the lexer's `read_float` (the lexer is not under
`src/`).  The spec fixes only that a decimal parse is attempted after the
hexadecimal one; this model accepts nonempty decimal-digit strings.  No
theorem below depends on which strings parse. -/
def read_float (s : List Nat) : Option F64 :=
  if s ≠ [] ∧ s.all (fun c => 48 ≤ c ∧ c ≤ 57) then some ⟨()⟩ else none

/-- Embedding of `Value::to_number` (`src/value.rs`): Integers and Numbers
pass through (Integer cast to `f64`), Strings try the hex-float parse first
and the decimal parse second, everything else is `None`. -/
def value.to_number : value → Option F64
  | .integer a => some (intToF64 a)
  | .number a => some a
  | .string a =>
      match read_hex_float a with
      | some f => some f
      | none => read_float a
  | _ => none

/-- The source's Float→Integer exact-roundtrip conversion in `to_integer`
(`if ((a as i64) as f64) == a { Some(a as i64) } else { None }`): its outcome
is a fact of IEEE-754 semantics, which this embedding does not model, so it is
an unspecified function of the unmodelled payload.  No theorem below depends
on its outcome. -/
def f64ToIntExact : F64 → Option Int := fun _ => none

/-- Embedding of `Value::to_integer` (`src/value.rs`): Integer passes through;
Number converts only when the float→int→float roundtrip is exact; String is
parsed as a number first and then subjected to the same exactness check. -/
def value.to_integer : value → Option Int
  | .integer a => some a
  | .number a => f64ToIntExact a
  | .string a =>
      match
        (match read_hex_float a with
        | some f => some f
        | none => read_float a)
      with
      | some f => f64ToIntExact f
      | none => none
  | _ => none

/-- Modelled from the spec: `String::concat` rendering of an Integer (the
string module is not under `src/`); the spec fixes decimal rendering, embedded
as the ASCII bytes of the usual decimal form. -/
def intToDecimalBytes (a : Int) : List Nat := (toString a).data.map Char.toNat

/-- Modelled from the spec: `String::concat` rendering of a Float (the string
module is not under `src/`); the spec fixes only "language-default float
formatting", and float contents are unmodelled, so the rendering is an
unspecified function of the payload.  No theorem below depends on its
contents. -/
def floatToBytes : F64 → List Nat := fun _ => [48]

/-- Embedding of `Value::to_string` (`src/value.rs`): Integer and Number
render through `String::concat`, String passes through, everything else is
`None`. -/
def value.to_string : value → Option (List Nat)
  | .integer a => some (intToDecimalBytes a)
  | .number a => some (floatToBytes a)
  | .string a => some a
  | _ => none

/-- Embedding of `Value::add` (`src/value.rs`): Integer-Integer wraps
(`wrapping_add`); otherwise both operands are coerced with `to_number` and a
Number is produced. -/
def value.add (a b : value) : Option value :=
  match a, b with
  | .integer x, .integer y => some (.integer (wrap64 (x + y)))
  | _, _ => do
      let x ← a.to_number
      let y ← b.to_number
      some (.number (f64Op2 x y))

/-- Embedding of `Value::subtract` (`src/value.rs`). -/
def value.subtract (a b : value) : Option value :=
  match a, b with
  | .integer x, .integer y => some (.integer (wrap64 (x - y)))
  | _, _ => do
      let x ← a.to_number
      let y ← b.to_number
      some (.number (f64Op2 x y))

/-- Embedding of `Value::multiply` (`src/value.rs`). -/
def value.multiply (a b : value) : Option value :=
  match a, b with
  | .integer x, .integer y => some (.integer (wrap64 (x * y)))
  | _, _ => do
      let x ← a.to_number
      let y ← b.to_number
      some (.number (f64Op2 x y))

/-- Embedding of `Value::floor_divide` (`src/value.rs`): on Integer-Integer a
zero divisor yields `None`, otherwise the source computes `a.wrapping_div(b)`
— Rust division, i.e. truncation toward zero (`Int.tdiv`), wrapped (the only
wrapping case is `i64::MIN / -1`); otherwise the float quotient's floor. -/
def value.floor_divide (a b : value) : Option value :=
  match a, b with
  | .integer x, .integer y =>
      if y = 0 then none else some (.integer (wrap64 (x.tdiv y)))
  | _, _ => do
      let x ← a.to_number
      let y ← b.to_number
      some (.number (f64Op2 x y))

/-- Outcome of an operation that can panic: `aborts` models a Rust panic
(the program stops; there is no result at all), `runs` normal completion
with the operation's ordinary result. -/
inductive RunOutcome (α : Type) where
  | aborts
  | runs (a : α)
deriving DecidableEq, Repr

/-- Rust's `%` operator on `i64`: truncated remainder (`Int.tmod`), except
that a zero divisor and the overflowing `i64::MIN % -1` panic — and unlike
`+`, whose overflow check is debug-only, the `%` overflow check is
unconditional, in every build profile.  `none` models the panic. -/
def rustRem (x y : Int) : Option Int :=
  if y = 0 ∨ (x = -2 ^ 63 ∧ y = -1) then none else some (x.tmod y)

/-- Embedding of `Value::modulo` (`src/value.rs`): on Integer-Integer a zero
divisor yields no value, otherwise the source computes `((a % b) + b) % b`
on `i64` with the plain `%` operator (not `wrapping_rem`), so
`modulo(i64::MIN, -1)` panics in every build profile (`rustRem`, producing
`aborts`); the guard makes the divisor of both `%`s nonzero.  The
intermediate `+ b` wraps (`wrap64`, the release-build semantics of `+`). -/
def value.modulo (a b : value) : RunOutcome (Option value) :=
  match a, b with
  | .integer x, .integer y =>
      if y = 0 then .runs none
      else
        match rustRem x y with
        | none => .aborts
        | some r1 =>
            match rustRem (wrap64 (r1 + y)) y with
            | none => .aborts
            | some r => .runs (some (.integer r))
  | _, _ =>
      .runs (do
        let x ← a.to_number
        let y ← b.to_number
        some (.number (f64Op2 x y)))

/-- Embedding of `Value::shift_left` (`src/value.rs`):
`to_integer()? << to_integer()?` on `i64`.  In Rust (release semantics) the
shift amount is masked to its low six bits — `y mod 64` — and the shifted
value wraps. -/
def value.shift_left (a b : value) : Option value := do
  let x ← a.to_integer
  let y ← b.to_integer
  some (.integer (wrap64 (x * 2 ^ (y % 64).toNat)))

/-- Embedding of `Value::shift_right` (`src/value.rs`):
`(to_integer()? as u64 >> to_integer()? as u64) as i64` — a logical (zero
filling) shift on the 64-bit pattern, with the shift amount masked to its low
six bits. -/
def value.shift_right (a b : value) : Option value := do
  let x ← a.to_integer
  let y ← b.to_integer
  some (.integer (wrap64 (toU64 x / 2 ^ (y % 64).toNat)))

/-- Embedding of Rust's `Ord` on byte slices, used by
`Value::less_than`/`less_equal` via `a.as_bytes() < b.as_bytes()`
(`src/value.rs`): elementwise comparison, a strict prefix being smaller. -/
def sliceCmp : List Nat → List Nat → Ordering
  | [], [] => .eq
  | [], _ :: _ => .lt
  | _ :: _, [] => .gt
  | a :: as_, b :: bs =>
      if a < b then .lt else if b < a then .gt else sliceCmp as_ bs

/-- Embedding of `Value::less_than` (`src/value.rs`): Integer-Integer
natively, String-String on bytes, otherwise both operands must coerce with
`to_number`. -/
def value.less_than (a b : value) : Option Bool :=
  match a, b with
  | .integer x, .integer y => some (decide (x < y))
  | .string s, .string t => some (sliceCmp s t == .lt)
  | _, _ => do
      let x ← a.to_number
      let y ← b.to_number
      some (f64Cmp x y)

/-- Embedding of `Value::less_equal` (`src/value.rs`). -/
def value.less_equal (a b : value) : Option Bool :=
  match a, b with
  | .integer x, .integer y => some (decide (x ≤ y))
  | .string s, .string t => some (sliceCmp s t != .gt)
  | _, _ => do
      let x ← a.to_number
      let y ← b.to_number
      some (f64Cmp x y)

/-- Embedding of `CallbackResult` (callback outcomes delivered to the
sequence framework): `Return(values)` or `Yield(values)`. -/
inductive CallbackResult where
  | ret (vals : List value)
  | yieldVals (vals : List value)
deriving DecidableEq, Repr

/-- Embedding of the error values flowing through the standard-library
callbacks: `TypeError { expected, found }` (two static strings) and
`RuntimeError(Value)`.  The repository's full `Error` enum is wider, but
these are the only variants the embedded callbacks construct or inspect. -/
inductive LuaError where
  | typeError (expected found : String)
  | runtimeError (v : value)
deriving DecidableEq, Repr

/-- Modelled from the spec: `Error::to_value` (not under `src/`); the spec
says error values crossing the boundary are plain Values, often strings, so a
`RuntimeError` yields its payload and a `TypeError` renders as a string.  No
theorem below depends on the rendered bytes. -/
def LuaError.to_value : LuaError → value
  | .runtimeError v => v
  | .typeError e f =>
      .string ((e.data.map Char.toNat) ++ [32] ++ (f.data.map Char.toNat))

/-- The ASCII bytes of `"Bad argument to len"`, the static message of the
`string.len` failure path (`src/stdlib/string.rs`). -/
def badArgToLen : List Nat :=
  "Bad argument to len".data.map Char.toNat

/-- Embedding of the `string.len` callback body (`src/stdlib/string.rs`):
coerce the first argument (defaulting to Nil) with `to_string`; on success
return the byte length as an Integer, on failure report
`RuntimeError("Bad argument to len")`. -/
def lenCallback (args : List value) : Except LuaError CallbackResult :=
  match (args.getD 0 .nil).to_string with
  | some s => .ok (.ret [.integer (s.length : Int)])
  | none => .error (.runtimeError (.string badArgToLen))

/-- Embedding of the `coroutine.create` callback body
(`src/stdlib/coroutine.rs`): the first argument (defaulting to Nil) must be a
Function, otherwise `TypeError { expected: "function", found: type_name }`;
on success a fresh Thread wrapping it is returned (`Thread::new_coroutine` is
not under `src/`; the fresh thread's identity is a parameter here). -/
def createCallback (freshId : Nat) (args : List value) :
    Except LuaError CallbackResult :=
  match args.getD 0 .nil with
  | .function _ => .ok (.ret [.thread freshId])
  | v => .error (.typeError "function" v.type_name)

/-- Embedding of the `coroutine.resume` callback body
(`src/stdlib/coroutine.rs`): the first argument (defaulting to Nil) must be a
Thread, otherwise `TypeError { expected: "thread", found: type_name }`.  The
thread is then resumed with the remaining arguments; `Thread::resume` itself
is not under `src/`, so its outcome — the values the thread yielded or
returned, or the error it raised — is taken as the parameter `resumeRes`.
The `then` step turns that outcome into a returned value list: a success is
prefixed with `Boolean(true)` and an error becomes
`[Boolean(false), error-as-value]`. -/
def resumeCallback (args : List value)
    (resumeRes : Except LuaError (List value)) :
    Except LuaError CallbackResult :=
  match args.getD 0 .nil with
  | .thread _ =>
      .ok (.ret
        (match resumeRes with
        | .ok vs => .boolean true :: vs
        | .error e => [.boolean false, e.to_value]))
  | v => .error (.typeError "thread" v.type_name)

/-- True exactly when a callback outcome is a reported `TypeError`. -/
def isTypeErrorResult : Except LuaError CallbackResult → Bool
  | .error (.typeError _ _) => true
  | _ => false

/-- True exactly on the `Integer` variant. -/
def value.isInt : value → Bool
  | .integer _ => true
  | _ => false

/-- True exactly on the `String` variant. -/
def value.isStr : value → Bool
  | .string _ => true
  | _ => false

/-! ### Helper lemmas about the two's-complement recentring -/

theorem wrap64_lit (x : Int) :
    wrap64 x = (x + 9223372036854775808) % 18446744073709551616 -
      9223372036854775808 := by
  norm_num [wrap64]

theorem i64Range_iff (x : Int) :
    i64Range x ↔ -9223372036854775808 ≤ x ∧ x < 9223372036854775808 := by
  norm_num [i64Range]

theorem wrap64_range (x : Int) : i64Range (wrap64 x) := by
  rw [i64Range_iff, wrap64_lit]; omega

theorem wrap64_eq_self {x : Int} (h : i64Range x) : wrap64 x = x := by
  rw [i64Range_iff] at h; rw [wrap64_lit]; omega

theorem wrap64_emod (x : Int) : wrap64 x % 2 ^ 64 = x % 2 ^ 64 := by
  have h : (2 : Int) ^ 64 = 18446744073709551616 := by norm_num
  rw [h, wrap64_lit]; omega

theorem toU64_lit (x : Int) : toU64 x = x % 18446744073709551616 := by
  norm_num [toU64]

theorem toU64_wrap64_of {u : Int} (h0 : 0 ≤ u)
    (h1 : u < 18446744073709551616) : toU64 (wrap64 u) = u := by
  rw [toU64_lit, wrap64_lit]; omega

/-! ### Helper lemmas about Rust's truncated remainder (`Int.tmod`) -/

theorem tmod_neg_left (a b : Int) : (-a).tmod b = -(a.tmod b) := by
  rw [Int.tmod_def, Int.tmod_def, Int.neg_tdiv]; ring

theorem neg_lt_tmod (a : Int) {b : Int} (h : 0 < b) : -b < a.tmod b := by
  have h1 := Int.tmod_lt_of_pos (-a) h
  rw [tmod_neg_left] at h1
  omega

theorem tmod_nonpos_left {a : Int} (b : Int) (h : a ≤ 0) : a.tmod b ≤ 0 := by
  have h1 := Int.tmod_nonneg (a := -a) b (by omega)
  rw [tmod_neg_left] at h1
  omega

theorem tmod_bounds (a : Int) {b : Int} (hb : b ≠ 0) :
    -(b.natAbs : Int) < a.tmod b ∧ a.tmod b < (b.natAbs : Int) := by
  rcases lt_trichotomy b 0 with hneg | hz | hpos
  · have he : a.tmod b = a.tmod (-b) := by
      have h1 := Int.tmod_neg a (-b)
      rw [neg_neg] at h1
      exact h1
    have h2 := Int.tmod_lt_of_pos a (b := -b) (by omega)
    have h3 := neg_lt_tmod a (b := -b) (by omega)
    rw [← he] at h2 h3
    omega
  · exact absurd hz hb
  · have h2 := Int.tmod_lt_of_pos a hpos
    have h3 := neg_lt_tmod a hpos
    omega

/-! ### Helper lemmas: `sliceCmp` agrees with lexicographic order -/

theorem sliceCmp_eq_iff (s : List Nat) : ∀ t, sliceCmp s t = .eq ↔ s = t := by
  induction s with
  | nil => intro t; cases t <;> simp [sliceCmp]
  | cons a as_ ih =>
    intro t
    cases t with
    | nil => simp [sliceCmp]
    | cons b bs =>
      rcases Nat.lt_trichotomy a b with h | h | h
      · have hne : a ≠ b := Nat.ne_of_lt h
        simp [sliceCmp, if_pos h, hne]
      · subst h
        simp [sliceCmp, ih bs]
      · have hne : a ≠ b := (Nat.ne_of_lt h).symm
        have hnlt : ¬a < b := by omega
        simp [sliceCmp, if_neg hnlt, if_pos h, hne]

theorem sliceCmp_lt_iff (s : List Nat) :
    ∀ t, sliceCmp s t = .lt ↔ List.Lex (· < ·) s t := by
  induction s with
  | nil =>
    intro t
    cases t with
    | nil => simp [sliceCmp]
    | cons b bs =>
      simp only [sliceCmp]
      exact ⟨fun _ => List.Lex.nil, fun _ => trivial⟩
  | cons a as_ ih =>
    intro t
    cases t with
    | nil => simp [sliceCmp]
    | cons b bs =>
      rcases Nat.lt_trichotomy a b with h | h | h
      · simp only [sliceCmp, if_pos h]
        exact ⟨fun _ => List.Lex.rel h, fun _ => trivial⟩
      · subst h
        have hnlt : ¬a < a := lt_irrefl a
        simp only [sliceCmp, if_neg hnlt]
        rw [ih bs, List.Lex.cons_iff]
      · have hnlt : ¬a < b := by omega
        simp only [sliceCmp, if_neg hnlt, if_pos h]
        constructor
        · intro hc; cases hc
        · intro hl
          cases hl with
          | cons h1 => omega
          | rel h1 => omega

theorem sliceCmp_swap (s : List Nat) :
    ∀ t, (sliceCmp s t).swap = sliceCmp t s := by
  induction s with
  | nil => intro t; cases t <;> simp [sliceCmp, Ordering.swap]
  | cons a as_ ih =>
    intro t
    cases t with
    | nil => simp [sliceCmp, Ordering.swap]
    | cons b bs =>
      rcases Nat.lt_trichotomy a b with h | h | h
      · have hnlt : ¬b < a := by omega
        simp [sliceCmp, if_pos h, if_neg hnlt, Ordering.swap]
      · subst h
        have hnlt : ¬a < a := lt_irrefl a
        simp [sliceCmp, if_neg hnlt, ih bs]
      · have hnlt : ¬a < b := by omega
        simp [sliceCmp, if_neg hnlt, if_pos h, Ordering.swap]

theorem sliceCmp_gt_iff (s t : List Nat) :
    sliceCmp s t = .gt ↔ List.Lex (· < ·) t s := by
  rw [← sliceCmp_lt_iff t s, ← sliceCmp_swap t s]
  cases sliceCmp t s <;> simp [Ordering.swap]

theorem sliceCmp_ne_gt_iff (s t : List Nat) :
    sliceCmp s t ≠ .gt ↔ (List.Lex (· < ·) s t ∨ s = t) := by
  constructor
  · intro h
    match hc : sliceCmp s t with
    | .lt => exact Or.inl ((sliceCmp_lt_iff s t).mp hc)
    | .eq => exact Or.inr ((sliceCmp_eq_iff s t).mp hc)
    | .gt => exact absurd hc h
  · rintro (h | h)
    · rw [(sliceCmp_lt_iff s t).mpr h]; simp
    · rw [(sliceCmp_eq_iff s t).mpr h]; simp

/-! ### Helper lemmas: the coercing (non-special-cased) branch of binary ops -/

theorem add_not_int (a b : value) (h : (a.isInt && b.isInt) = false) :
    value.add a b =
      (a.to_number).bind fun x =>
        (b.to_number).bind fun y => some (.number (f64Op2 x y)) := by
  cases a <;> cases b <;> simp_all [value.add, value.isInt]

theorem subtract_not_int (a b : value) (h : (a.isInt && b.isInt) = false) :
    value.subtract a b =
      (a.to_number).bind fun x =>
        (b.to_number).bind fun y => some (.number (f64Op2 x y)) := by
  cases a <;> cases b <;> simp_all [value.subtract, value.isInt]

theorem multiply_not_int (a b : value) (h : (a.isInt && b.isInt) = false) :
    value.multiply a b =
      (a.to_number).bind fun x =>
        (b.to_number).bind fun y => some (.number (f64Op2 x y)) := by
  cases a <;> cases b <;> simp_all [value.multiply, value.isInt]

theorem less_than_not_special (a b : value) (hi : (a.isInt && b.isInt) = false)
    (hs : (a.isStr && b.isStr) = false) :
    value.less_than a b =
      (a.to_number).bind fun x =>
        (b.to_number).bind fun y => some (f64Cmp x y) := by
  cases a <;> cases b <;> simp_all [value.less_than, value.isInt, value.isStr]

theorem less_equal_not_special (a b : value) (hi : (a.isInt && b.isInt) = false)
    (hs : (a.isStr && b.isStr) = false) :
    value.less_equal a b =
      (a.to_number).bind fun x =>
        (b.to_number).bind fun y => some (f64Cmp x y) := by
  cases a <;> cases b <;> simp_all [value.less_equal, value.isInt, value.isStr]

theorem ordering_beq_lt_iff (o : Ordering) :
    (o == Ordering.lt) = true ↔ o = .lt := by
  cases o <;> decide

theorem ordering_bne_gt_iff (o : Ordering) :
    (o != Ordering.gt) = true ↔ o ≠ .gt := by
  cases o <;> decide

/-! ### Claim theorems -/

/-- Claim C1 (code bug): `floor_divide` on Integers does not round toward
negative infinity.  At the claim's own example, `floor_divide(-7, 2)`, the
source computes `(-7).wrapping_div(2)`, Rust truncating division, and returns
`Integer(-3)`, not the `Integer(-4)` required by the claim and by the
function's own doc comment; division by zero does yield no value. -/
theorem floor_divide_truncation_bug :
    value.floor_divide (.integer (-7)) (.integer 2) = some (.integer (-3)) ∧
    some (value.integer (-3)) ≠ some (value.integer (-4)) ∧
    value.floor_divide (.integer (-7)) (.integer 0) = none := by decide

/-- Claim C2, counterexample: `modulo` does not always carry the divisor's
sign.  With `a = 2^63 - 2` and `b = 2^63 - 1` the intermediate `(a % b) + b`
overflows `i64` and wraps, so the code returns `Integer(-3)` although the
divisor is positive (the mathematical value of `((a % b) + b) % b` here is
`2^63 - 2`). -/
theorem modulo_sign_cex :
    value.modulo (.integer 9223372036854775806)
        (.integer 9223372036854775807) = .runs (some (.integer (-3))) ∧
    (0 : Int) < 9223372036854775807 ∧ ¬(0 : Int) ≤ -3 := by decide

/-- Claim C2 (amended): Integer `modulo` with divisor `0` yields no value;
`modulo(i64::MIN, -1)` panics in every build profile, because the source
uses the plain `%` operator whose overflow check is unconditional; for every
other nonzero divisor it computes `((a % b) + b) % b` with Rust truncated
remainder, and whenever the intermediate `(a % b) + b` stays within the
`i64` range the result has the divisor's sign: in `[0, b)` for `b > 0` and
in `(b, 0]` for `b < 0` (e.g. `modulo(-1, 3) = 2`). -/
theorem modulo_int_spec :
    (∀ a : Int, value.modulo (.integer a) (.integer 0) = .runs none) ∧
    value.modulo (.integer (-9223372036854775808)) (.integer (-1)) =
      .aborts ∧
    (∀ a b : Int, b ≠ 0 → ¬(a = -2 ^ 63 ∧ b = -1) →
      i64Range (a.tmod b + b) →
      value.modulo (.integer a) (.integer b) =
        .runs (some (.integer ((a.tmod b + b).tmod b))) ∧
      (0 < b → 0 ≤ (a.tmod b + b).tmod b ∧ (a.tmod b + b).tmod b < b) ∧
      (b < 0 → b < (a.tmod b + b).tmod b ∧ (a.tmod b + b).tmod b ≤ 0)) := by
  refine ⟨fun a => by simp [value.modulo], by decide, ?_⟩
  intro a b hb hmin hr
  have hcond1 : ¬(b = 0 ∨ (a = -2 ^ 63 ∧ b = -1)) := fun h => h.elim hb hmin
  have h1 : rustRem a b = some (a.tmod b) := by
    unfold rustRem; rw [if_neg hcond1]
  have hcond2 : ¬(b = 0 ∨ (wrap64 (a.tmod b + b) = -2 ^ 63 ∧ b = -1)) := by
    rw [wrap64_eq_self hr]
    rintro (h | ⟨hm, hbm⟩)
    · exact hb h
    · subst hbm
      have h0 : a.tmod (-1 : Int) = 0 := by
        simp
      rw [h0] at hm
      norm_num at hm
  have h2 : rustRem (wrap64 (a.tmod b + b)) b =
      some ((a.tmod b + b).tmod b) := by
    unfold rustRem
    rw [if_neg hcond2, wrap64_eq_self hr]
  refine ⟨by simp [value.modulo, hb, h1, h2], ?_, ?_⟩
  · intro hbpos
    have hbd := tmod_bounds a (b := b) hb
    have hna : (b.natAbs : Int) = b := by omega
    have hpos : 0 < a.tmod b + b := by omega
    exact ⟨Int.tmod_nonneg b (le_of_lt hpos), Int.tmod_lt_of_pos _ hbpos⟩
  · intro hbneg
    have hbd := tmod_bounds a (b := b) hb
    have hna : (b.natAbs : Int) = -b := by omega
    have hneg : a.tmod b + b ≤ 0 := by omega
    have h1 := tmod_nonpos_left (a := a.tmod b + b) b hneg
    have h2 := tmod_bounds (a.tmod b + b) (b := b) hb
    exact ⟨by omega, h1⟩

/-- Witness for the amended C2 theorem: `modulo(-1, 3) = 2` (nonnegative and
below the divisor), and `modulo(5, 0)` yields no value. -/
theorem modulo_int_spec_witness :
    value.modulo (.integer (-1)) (.integer 3) = .runs (some (.integer 2)) ∧
    value.modulo (.integer 5) (.integer 0) = .runs none := by
  have h := modulo_int_spec
  refine ⟨?_, h.1 5⟩
  have h2 := (h.2.2 (-1) 3 (by decide) (by decide) (by decide)).1
  rw [h2]; decide

/-- Claim C5: on two Integers, `add`/`subtract`/`multiply` return the
two's-complement wraparound result (an `i64`-range value congruent to the
exact result mod `2^64`), never failing; when the operands are not both
Integer, both are coerced with `to_number` and a Float is produced, with no
value if either coercion fails. -/
theorem arith_wrap_spec :
    (∀ a b : Int,
      value.add (.integer a) (.integer b) = some (.integer (wrap64 (a + b))) ∧
      value.subtract (.integer a) (.integer b) =
        some (.integer (wrap64 (a - b))) ∧
      value.multiply (.integer a) (.integer b) =
        some (.integer (wrap64 (a * b))) ∧
      i64Range (wrap64 (a + b)) ∧ wrap64 (a + b) % 2 ^ 64 = (a + b) % 2 ^ 64 ∧
      i64Range (wrap64 (a - b)) ∧ wrap64 (a - b) % 2 ^ 64 = (a - b) % 2 ^ 64 ∧
      i64Range (wrap64 (a * b)) ∧
      wrap64 (a * b) % 2 ^ 64 = (a * b) % 2 ^ 64) ∧
    (∀ a b : value, (a.isInt && b.isInt) = false →
      ((a.to_number = none ∨ b.to_number = none) →
        value.add a b = none ∧ value.subtract a b = none ∧
        value.multiply a b = none) ∧
      (∀ x y : F64, a.to_number = some x → b.to_number = some y →
        value.add a b = some (.number (f64Op2 x y)) ∧
        value.subtract a b = some (.number (f64Op2 x y)) ∧
        value.multiply a b = some (.number (f64Op2 x y)))) := by
  constructor
  · intro a b
    exact ⟨rfl, rfl, rfl, wrap64_range _, wrap64_emod _, wrap64_range _,
      wrap64_emod _, wrap64_range _, wrap64_emod _⟩
  · intro a b h
    have ha := add_not_int a b h
    have hs := subtract_not_int a b h
    have hm := multiply_not_int a b h
    constructor
    · rintro (hn | hn)
      · simp [ha, hs, hm, hn]
      · cases hx : a.to_number <;> simp [ha, hs, hm, hn, hx]
    · intro x y hx hy
      simp [ha, hs, hm, hx, hy]

/-- Witness for the C5 theorem: `i64::MAX + 1` wraps to `i64::MIN`, and a
Table operand (which fails `to_number`) yields no value. -/
theorem arith_wrap_witness :
    value.add (.integer 9223372036854775807) (.integer 1) =
      some (.integer (-9223372036854775808)) ∧
    value.add (.table 0) (.integer 1) = none := by
  have h := arith_wrap_spec
  constructor
  · have h1 := (h.1 9223372036854775807 1).1
    rw [h1]; decide
  · exact ((h.2 (.table 0) (.integer 1) rfl).1 (Or.inl rfl)).1

/-- Claim C6: the `coroutine.resume` callback, applied to a Thread, never
propagates the resumed thread's outcome as a failure of its own: whatever
`Thread::resume` produces, the callback returns `Ok` with either
`(true, values...)` on success or `(false, error-value)` on an inner error —
that pair shape is the only channel reporting success or failure. -/
theorem resume_two_shape :
    (∀ (t : Nat) (rest vs : List value),
      resumeCallback (.thread t :: rest) (.ok vs) =
        .ok (.ret (.boolean true :: vs))) ∧
    (∀ (t : Nat) (rest : List value) (e : LuaError),
      resumeCallback (.thread t :: rest) (.error e) =
        .ok (.ret [.boolean false, e.to_value])) :=
  ⟨fun _ _ _ => rfl, fun _ _ _ => rfl⟩

/-- Claim C7, counterexample: `string.len` on an argument whose `to_string`
fails (a Table) reports `RuntimeError("Bad argument to len")`, not a
TypeError carrying expected and found type names. -/
theorem len_error_is_runtime_cex :
    lenCallback [.table 0] = .error (.runtimeError (.string badArgToLen)) ∧
    isTypeErrorResult (lenCallback [.table 0]) = false := ⟨rfl, rfl⟩

/-- Claim C7 (amended): the coroutine callbacks report a TypeError carrying
the expected and found type names when their argument has the wrong type
(`create` on a non-function, `resume` on a non-thread), but `string.len` on
an argument whose `to_string` coercion fails reports a RuntimeError with the
fixed message `"Bad argument to len"`, without type names. -/
theorem callback_coercion_error_spec :
    (∀ v : value, (∀ id, v ≠ .function id) → ∀ fresh : Nat,
      createCallback fresh [v] =
        .error (.typeError "function" v.type_name)) ∧
    (∀ v : value, (∀ id, v ≠ .thread id) →
      ∀ res : Except LuaError (List value),
      resumeCallback [v] res = .error (.typeError "thread" v.type_name)) ∧
    (∀ v : value, v.to_string = none →
      lenCallback [v] = .error (.runtimeError (.string badArgToLen))) := by
  refine ⟨?_, ?_, ?_⟩
  · intro v hv fresh
    cases v <;> first | rfl | exact absurd rfl (hv _)
  · intro v hv res
    cases v <;> first | rfl | exact absurd rfl (hv _)
  · intro v hv
    cases v <;> simp_all [lenCallback, value.to_string]

/-- Witness for the amended C7 theorem: `create` on an Integer reports
`TypeError(expected "function", found "number")`, `resume` on a Boolean
reports `TypeError(expected "thread", found "boolean")`, and `len` on a
Boolean reports the RuntimeError. -/
theorem callback_coercion_error_witness :
    createCallback 7 [.integer 5] =
      .error (.typeError "function" "number") ∧
    resumeCallback [.boolean true] (.ok []) =
      .error (.typeError "thread" "boolean") ∧
    lenCallback [.boolean true] =
      .error (.runtimeError (.string badArgToLen)) := by
  have h := callback_coercion_error_spec
  exact ⟨h.1 (.integer 5) (by intro id hid; cases hid) 7,
    h.2.1 (.boolean true) (by intro id hid; cases hid) (.ok []),
    h.2.2 (.boolean true) rfl⟩

/-- Claim C8: `less_than`/`less_equal` compare two Integers natively and two
Strings byte-lexicographically (the byte comparison coincides with
lexicographic order on byte lists, a strict prefix being smaller); in every
other case both operands must coerce with `to_number`, and if either
coercion fails the comparison yields no value, never a silent `false`. -/
theorem compare_spec :
    (∀ x y : Int,
      value.less_than (.integer x) (.integer y) = some (decide (x < y)) ∧
      value.less_equal (.integer x) (.integer y) = some (decide (x ≤ y))) ∧
    (∀ s t : List Nat,
      value.less_than (.string s) (.string t) = some (sliceCmp s t == .lt) ∧
      ((sliceCmp s t == .lt) = true ↔ List.Lex (· < ·) s t) ∧
      value.less_equal (.string s) (.string t) =
        some (sliceCmp s t != .gt) ∧
      ((sliceCmp s t != .gt) = true ↔
        (List.Lex (· < ·) s t ∨ s = t))) ∧
    (∀ a b : value, (a.isInt && b.isInt) = false →
      (a.isStr && b.isStr) = false →
      (a.to_number = none ∨ b.to_number = none) →
      value.less_than a b = none ∧ value.less_equal a b = none) := by
  refine ⟨fun x y => ⟨rfl, rfl⟩, fun s t => ⟨rfl, ?_, rfl, ?_⟩, ?_⟩
  · rw [ordering_beq_lt_iff]; exact sliceCmp_lt_iff s t
  · rw [ordering_bne_gt_iff]; exact sliceCmp_ne_gt_iff s t
  · intro a b hi hs hn
    have hlt := less_than_not_special a b hi hs
    have hle := less_equal_not_special a b hi hs
    rcases hn with hn | hn
    · simp [hlt, hle, hn]
    · cases hx : a.to_number <;> simp [hlt, hle, hn, hx]

/-- Witness for the C8 theorem: `"a" < "ab"` byte-lexicographically, and
comparing a Table with a String (either way round) yields no value. -/
theorem compare_spec_witness :
    value.less_than (.string [97]) (.string [97, 98]) = some true ∧
    value.less_than (.table 0) (.string [97]) = none ∧
    value.less_equal (.string [98]) (.table 0) = none := by
  have h := compare_spec
  refine ⟨?_, ?_, ?_⟩
  · rw [(h.2.1 [97] [97, 98]).1]; decide
  · exact (h.2.2 (.table 0) (.string [97]) rfl rfl (Or.inl rfl)).1
  · exact (h.2.2 (.string [98]) (.table 0) rfl rfl (Or.inr rfl)).2

/-- Claim C9: `string.len` accepts any argument on which `to_string`
succeeds, not only Strings: an Integer or a Float yields the byte length of
its string rendering, and a String yields its own byte length. -/
theorem len_accepts_coercible :
    (∀ n : Int, lenCallback [.integer n] =
      .ok (.ret [.integer ((intToDecimalBytes n).length : Int)])) ∧
    (∀ f : F64, lenCallback [.number f] =
      .ok (.ret [.integer ((floatToBytes f).length : Int)])) ∧
    (∀ s : List Nat, lenCallback [.string s] =
      .ok (.ret [.integer (s.length : Int)])) :=
  ⟨fun _ => rfl, fun _ => rfl, fun _ => rfl⟩

/-- Claim C10: `shift_left` and `shift_right` are total on coercible
operands: whenever `to_integer` succeeds on both, they return an Integer in
the `i64` range (Rust shifts mask the amount to `y mod 64`, so negative and
oversized amounts do not fault), and `shift_right` is logical: the result's
unsigned 64-bit pattern is the operand's unsigned pattern divided by
`2^(y mod 64)` (zero fill). -/
theorem shift_total_spec :
    ∀ (a b : value) (x y : Int), a.to_integer = some x →
      b.to_integer = some y →
      value.shift_left a b =
        some (.integer (wrap64 (x * 2 ^ (y % 64).toNat))) ∧
      i64Range (wrap64 (x * 2 ^ (y % 64).toNat)) ∧
      value.shift_right a b =
        some (.integer (wrap64 (toU64 x / 2 ^ (y % 64).toNat))) ∧
      i64Range (wrap64 (toU64 x / 2 ^ (y % 64).toNat)) ∧
      toU64 (wrap64 (toU64 x / 2 ^ (y % 64).toNat)) =
        toU64 x / 2 ^ (y % 64).toNat := by
  intro a b x y hx hy
  refine ⟨by simp [value.shift_left, hx, hy], wrap64_range _,
    by simp [value.shift_right, hx, hy], wrap64_range _, ?_⟩
  have hpow : (0 : Int) < 2 ^ (y % 64).toNat := by positivity
  have h0 : 0 ≤ toU64 x := by rw [toU64_lit]; omega
  have h1 : toU64 x < 18446744073709551616 := by rw [toU64_lit]; omega
  have hq0 : 0 ≤ toU64 x / 2 ^ (y % 64).toNat :=
    Int.ediv_nonneg h0 (le_of_lt hpow)
  have hq1 : toU64 x / 2 ^ (y % 64).toNat ≤ toU64 x :=
    Int.ediv_le_self _ h0
  exact toU64_wrap64_of hq0 (by omega)

/-- Witness for the C10 theorem: shifting by `100` (≥ 64, masked to `36`)
and by `-1` (masked to `63`) both return Integers. -/
theorem shift_total_witness :
    value.shift_left (.integer 1) (.integer 100) =
      some (.integer 68719476736) ∧
    value.shift_right (.integer 1) (.integer 100) = some (.integer 0) ∧
    value.shift_left (.integer 1) (.integer (-1)) =
      some (.integer (-9223372036854775808)) := by
  have h1 := shift_total_spec (.integer 1) (.integer 100) 1 100 rfl rfl
  have h2 := shift_total_spec (.integer 1) (.integer (-1)) 1 (-1) rfl rfl
  refine ⟨?_, ?_, ?_⟩
  · rw [h1.1]; decide
  · rw [h1.2.2.1]; decide
  · rw [h2.1]; decide

end Luster
